import Mathlib

/-!
Verification of the retrieval core of the `build-fest` RAG chatbot repository.

The development shallowly embeds the JavaScript sources:
* `chunkText` and its helpers from `src/server/rag/utils.js` (text is modelled
  as `List Char`, mirroring the JS string as a sequence of code units);
* `cosineSimilarity` and `searchSimilarChunks` from the search module
  (`src/unnamed/part_000`, imported elsewhere as `../rag/search.js`), with JS
  doubles idealised as real numbers and a thrown exception modelled as
  `Except.error`;
* the `handleChat` orchestrator from the chat route (second half of
  `src/server/rag/embed.js`), with the external collaborators (file system,
  Ollama embedding and completion calls) supplied as an environment record and
  the externally observable calls recorded in an event trace.
-/

namespace RAG

/-! ### Chunker (`src/server/rag/utils.js`)

`chunkText` first does `text.split(/\n\n+/)`.  We model that regex split as a
character-level scan: `splitGo acc nl rest` walks the text keeping the current
paragraph (reversed) in `acc` and the number of immediately pending newline
characters in `nl`; a maximal run of two or more newlines is a paragraph
separator, shorter runs stay inside the paragraph.  On the empty string the JS
split yields `[""]`, and a trailing separator yields a trailing empty
paragraph, both of which the scan reproduces. -/

def splitGo : List Char → Nat → List Char → List (List Char)
  | acc, nl, [] =>
    if 2 ≤ nl then [acc.reverse, []] else [(List.replicate nl '\n' ++ acc).reverse]
  | acc, nl, c :: rest =>
    if c = '\n' then splitGo acc (nl + 1) rest
    else if 2 ≤ nl then acc.reverse :: splitGo [c] 0 rest
    else splitGo (c :: (List.replicate nl '\n' ++ acc)) 0 rest

/-- Model of `text.split(/\n\n+/)` from `chunkText`. -/
def splitParagraphs (text : List Char) : List (List Char) :=
  splitGo [] 0 text

/-- Model of JavaScript `String.prototype.trim`: strip whitespace from both
ends. -/
def jsTrim (s : List Char) : List Char :=
  ((s.dropWhile Char.isWhitespace).reverse.dropWhile Char.isWhitespace).reverse

/-- The paragraph separator `'\n\n'` appended by `chunkText` after every
accumulated paragraph. -/
def nl2 : List Char := ['\n', '\n']

/-- Model of `currentChunk.slice(-overlap)`.  JavaScript `slice(-0)` is
`slice(0)`, i.e. the whole string, so `overlap = 0` returns `s` unchanged;
otherwise the last `overlap` characters are taken. -/
def jsSliceLast (s : List Char) (n : Nat) : List Char :=
  if n = 0 then s else s.drop (s.length - n)

/-- One iteration of the `for (const paragraph of paragraphs)` loop body of
`chunkText`.  The state is the pair `(chunks, currentChunk)`.  Note the branch
condition is `currentChunk.length + paragraph.length < chunkSize`: the
two-character separator appended afterwards is not counted in the test. -/
def chunkStep (chunkSize overlap : Nat) :
    List (List Char) × List Char → List Char → List (List Char) × List Char
  | (chunks, currentChunk), paragraph =>
    if currentChunk.length + paragraph.length < chunkSize then
      (chunks, currentChunk ++ paragraph ++ nl2)
    else
      let chunks' :=
        if 0 < currentChunk.length then chunks ++ [jsTrim currentChunk] else chunks
      if overlap < currentChunk.length then
        (chunks', jsSliceLast currentChunk overlap ++ paragraph ++ nl2)
      else
        (chunks', paragraph ++ nl2)

/-- Embedding of `chunkText(text, chunkSize = 2000, overlap = 200)` from
`src/server/rag/utils.js`. -/
def chunkText (text : List Char) (chunkSize : Nat := 2000) (overlap : Nat := 200) :
    List (List Char) :=
  let paragraphs := splitParagraphs text
  let st := paragraphs.foldl (chunkStep chunkSize overlap) ([], [])
  if 0 < st.2.length then st.1 ++ [jsTrim st.2] else st.1

/-- Modelled from the spec: the accumulation rule of §4.1 read literally,
"if appending it (plus a paragraph separator) keeps the buffer's length
strictly below `chunkSize`, append it" — i.e. the separator length is counted
in the branch condition, unlike the source's `chunkStep`. -/
def chunkStepSpecSep (chunkSize overlap : Nat) :
    List (List Char) × List Char → List Char → List (List Char) × List Char
  | (chunks, currentChunk), paragraph =>
    if currentChunk.length + paragraph.length + nl2.length < chunkSize then
      (chunks, currentChunk ++ paragraph ++ nl2)
    else
      let chunks' :=
        if 0 < currentChunk.length then chunks ++ [jsTrim currentChunk] else chunks
      if overlap < currentChunk.length then
        (chunks', jsSliceLast currentChunk overlap ++ paragraph ++ nl2)
      else
        (chunks', paragraph ++ nl2)

/-- Modelled from the spec: `chunkText` with the spec-literal accumulation rule
`chunkStepSpecSep` in place of the source's `chunkStep`; used only to compare
the two rules. -/
def chunkTextSpecSep (text : List Char) (chunkSize : Nat := 2000) (overlap : Nat := 200) :
    List (List Char) :=
  let paragraphs := splitParagraphs text
  let st := paragraphs.foldl (chunkStepSpecSep chunkSize overlap) ([], [])
  if 0 < st.2.length then st.1 ++ [jsTrim st.2] else st.1

/-! ### Similarity computation and search (`src/unnamed/part_000`)

JavaScript doubles are idealised as real numbers; the `throw` in
`cosineSimilarity` becomes `Except.error`.  `Math.sqrt` is `Real.sqrt`, and the
single accumulation loop over `i < vecA.length` is split into the dot product
and the two squared norms over the same index range. -/

/-- The single error thrown by the similarity module: `'Vectors must have the
same length'` (the spec's `DimensionMismatch`). -/
inductive SimError where
  | dimensionMismatch
deriving DecidableEq

/-- `dotProduct` accumulated by the loop of `cosineSimilarity`:
`Σ vecA[i] * vecB[i]` over the common index range. -/
noncomputable def dotList (a b : List ℝ) : ℝ :=
  ((a.zip b).map fun p => p.1 * p.2).sum

/-- The pre-`sqrt` accumulation of `normA` (resp. `normB`):
`Σ v[i] * v[i]`. -/
noncomputable def sumSq (a : List ℝ) : ℝ :=
  (a.map fun x => x * x).sum

/-- Embedding of `cosineSimilarity(vecA, vecB)`: throws on length mismatch,
returns `0` when either Euclidean norm is exactly zero, otherwise the dot
product divided by the product of the norms. -/
noncomputable def cosineSimilarity (vecA vecB : List ℝ) : Except SimError ℝ :=
  if vecA.length ≠ vecB.length then
    .error .dimensionMismatch
  else
    let dotProduct := dotList vecA vecB
    let normA := Real.sqrt (sumSq vecA)
    let normB := Real.sqrt (sumSq vecB)
    if normA = 0 ∨ normB = 0 then .ok 0
    else .ok (dotProduct / (normA * normB))

/-- A stored chunk of the vector store (`vector_store.json` schema:
`{text, filename, chunkIndex, embedding}`). -/
structure EmbeddedChunk where
  text : String
  filename : String
  chunkIndex : Nat
  embedding : List ℝ

/-- The fresh record `{...chunk, similarity}` built by `searchSimilarChunks`
for each stored chunk. -/
structure ScoredChunk where
  chunk : EmbeddedChunk
  similarity : ℝ

/-- The `chunks.map(chunk => ({...chunk, similarity: cosineSimilarity(...)}))`
stage of `searchSimilarChunks`.  The callback may throw, and JavaScript `map`
propagates the first exception, aborting the whole call. -/
noncomputable def scoreChunks (queryEmbedding : List ℝ) :
    List EmbeddedChunk → Except SimError (List ScoredChunk)
  | [] => .ok []
  | c :: cs =>
    match cosineSimilarity queryEmbedding c.embedding with
    | .error e => .error e
    | .ok s =>
      match scoreChunks queryEmbedding cs with
      | .error e => .error e
      | .ok rest => .ok (⟨c, s⟩ :: rest)

/-- Ordering relation used by the sort `results.sort((a, b) => b.similarity -
a.similarity)`: `a` precedes `b` when `b.similarity ≤ a.similarity`
(descending). -/
def simDescRel (a b : ScoredChunk) : Prop :=
  b.similarity ≤ a.similarity

noncomputable instance : DecidableRel simDescRel :=
  fun a b => inferInstanceAs (Decidable (b.similarity ≤ a.similarity))

instance : IsTotal ScoredChunk simDescRel :=
  ⟨fun a b => le_total b.similarity a.similarity⟩

instance : IsTrans ScoredChunk simDescRel :=
  ⟨fun _ _ _ h1 h2 => le_trans h2 h1⟩

/-- Model of the in-place `results.sort((a, b) => b.similarity - a.similarity)`.
Since ES2019 `Array.prototype.sort` is specified to be stable, and a stable
sort's output is uniquely determined by the comparator and the input order, any
stable sorting algorithm is a faithful model; we use insertion sort, which
places each element before the existing elements it ties with — exactly the
stable behaviour, because elements are inserted starting from the rightmost. -/
noncomputable def sortDesc (results : List ScoredChunk) : List ScoredChunk :=
  List.insertionSort simDescRel results

/-- Embedding of `searchSimilarChunks(queryEmbedding, chunks, topK = 5)`:
score every chunk (a thrown `DimensionMismatch` aborts the call), sort the
fresh list of scored records descending by similarity, and `slice(0, topK)`. -/
noncomputable def searchSimilarChunks (queryEmbedding : List ℝ)
    (chunks : List EmbeddedChunk) (topK : Nat := 5) :
    Except SimError (List ScoredChunk) :=
  (scoreChunks queryEmbedding chunks).map fun results => (sortDesc results).take topK

/-! ### Chat orchestrator (`handleChat`, chat route in `src/server/rag/embed.js`)

The collaborators are supplied through `ChatEnv`: `store` is the result of
`loadVectorStore()` (`Except.error` models the thrown "vector store not found"
message), `embed` and `complete` are the Ollama clients, `model` is
`OLLAMA_MODEL`.  Every externally observable call the handler makes is
recorded, in order, in the returned `ChatEvent` trace; the early-rejection
path returns an empty trace.  The `toFixed(4)` display formatting of the
similarity is not modelled: the entry keeps the number itself. -/

/-- A loaded `vector_store.json` snapshot (only the `chunks` field is read by
`handleChat`). -/
structure VectorStore where
  chunks : List EmbeddedChunk

/-- The collaborators of the chat route. -/
structure ChatEnv where
  store : Except String VectorStore
  embed : String → List ℝ
  complete : String → String → String
  model : String

/-- Externally observable calls made by `handleChat`, in program order. -/
inductive ChatEvent where
  | loadStore
  | embedCall (text : String)
  | completeCall (systemPrompt userPrompt : String)
deriving DecidableEq

/-- One entry of the response `sources` array. -/
structure SourceEntry where
  filename : String
  similarity : ℝ
  preview : String

/-- The JSON payload sent by the route, flattened over the success and error
shapes. -/
structure ChatResponse where
  status : Nat
  answer : Option String
  sources : List SourceEntry
  usingKnowledgebase : Bool
  model : Option String
  error : Option String
  details : Option String

def msgRequired : String := "Message is required"

def msgFailed : String := "Failed to process chat request"

def msgVectors : String := "Vectors must have the same length"

def ellipsis : String := "..."

def ctxDelim : String := "\n\n---\n\n"

def srcOpen : String := "[Source "

def srcDash : String := " - "

def srcClose : String := "]\n"

/-- The fixed part of the RAG system prompt built in step 5 of the route
(the `${context}` template hole follows it). -/
def ragPreamble : String :=
  "You are a helpful assistant that answers questions based ONLY on the provided context from the knowledgebase.\n\nImportant rules:\n- Answer questions using ONLY the information in the context below\n- If the context doesn\x27t contain relevant information, say \"I don\x27t have enough information in the knowledgebase to answer that question.\"\n- Do not make up information or use external knowledge\n- Be concise and accurate\n- Cite the source when possible\n\nContext from knowledgebase:\n"

/-- The labelled context block for one retrieved chunk:
`[Source ${idx + 1} - ${chunk.filename}]\n${chunk.text}`. -/
def sourceLabel (idx : Nat) (c : ScoredChunk) : String :=
  srcOpen ++ toString (idx + 1) ++ srcDash ++ c.chunk.filename ++ srcClose ++ c.chunk.text

/-- Step 4 of the route: join the labelled chunks with `'\n\n---\n\n'`. -/
def buildContext (topChunks : List ScoredChunk) : String :=
  String.intercalate ctxDelim (topChunks.enum.map fun p => sourceLabel p.1 p.2)

/-- One `sources` entry: `{filename, similarity: toFixed(4), preview:
text.substring(0, 150) + '...'}` (formatting of the similarity not
modelled). -/
def mkSourceEntry (c : ScoredChunk) : SourceEntry :=
  { filename := c.chunk.filename
    similarity := c.similarity
    preview := c.chunk.text.take 150 ++ ellipsis }

/-- The 400 payload `{error: 'Message is required'}`. -/
def badRequestResponse : ChatResponse :=
  { status := 400
    answer := none
    sources := []
    usingKnowledgebase := false
    model := none
    error := some msgRequired
    details := none }

/-- The catch-all 500 payload `{error: 'Failed to process chat request',
details: error.message}`. -/
def serverErrorResponse (details : String) : ChatResponse :=
  { status := 500
    answer := none
    sources := []
    usingKnowledgebase := false
    model := none
    error := some msgFailed
    details := some details }

/-- Embedding of `handleChat(req, res)`: reject missing/empty/whitespace-only
messages with 400 before any collaborator is touched, then load the store,
embed the query, search with `topK = 5`, assemble the prompt, call the
completion model, and return the answer with the `sources` list.  Collaborator
failures surface as the catch-all 500. -/
noncomputable def handleChat (env : ChatEnv) (message : Option String) :
    ChatResponse × List ChatEvent :=
  match message with
  | none => (badRequestResponse, [])
  | some m =>
    if m = "" ∨ (jsTrim m.data).length = 0 then (badRequestResponse, [])
    else
      match env.store with
      | .error e => (serverErrorResponse e, [ChatEvent.loadStore])
      | .ok vectorStore =>
        let queryEmbedding := env.embed m
        match searchSimilarChunks queryEmbedding vectorStore.chunks 5 with
        | .error _ =>
          (serverErrorResponse msgVectors, [ChatEvent.loadStore, ChatEvent.embedCall m])
        | .ok topChunks =>
          let systemPrompt := ragPreamble ++ buildContext topChunks
          let answer := env.complete systemPrompt m
          ({ status := 200
             answer := some answer
             sources := topChunks.map mkSourceEntry
             usingKnowledgebase := true
             model := some env.model
             error := none
             details := none },
           [ChatEvent.loadStore, ChatEvent.embedCall m,
            ChatEvent.completeCall systemPrompt m])

/-! ### Measures used to reason about the chunker -/

/-- Lower bound witness for the text that produced a paragraph list: the
paragraph characters plus two characters for each of the separators between
consecutive paragraphs. -/
def sumLens (ps : List (List Char)) : Nat :=
  (ps.map List.length).sum + 2 * (ps.length - 1)

/-- The buffer accumulated by `chunkText` when every paragraph fits: each
paragraph followed by the `'\n\n'` separator. -/
def flatNl (ps : List (List Char)) : List Char :=
  (ps.map fun p => p ++ nl2).flatten

/-! ### Concrete instances used by witnesses and counterexamples -/

def txtA : String := "alpha"

def txtB : String := "bravo"

def txtC : String := "charlie"

def txtD : String := "delta"

def fnDoc : String := "doc.md"

def fnNotes : String := "notes.md"

/-- Query embedding for the fabricated demo store. -/
noncomputable def q4 : List ℝ := [1, 0, 0, 0]

/-- Embedding with cosine similarity `9/10` to `q4`. -/
noncomputable def eA : List ℝ := [9, 3, 3, 1]

/-- Embedding with cosine similarity `1/2` to `q4` (first tied chunk). -/
noncomputable def eB : List ℝ := [1, 1, 1, 1]

/-- Embedding with cosine similarity `1/2` to `q4` (second tied chunk). -/
noncomputable def eC : List ℝ := [2, 2, 2, 2]

/-- Embedding with cosine similarity `1/5` to `q4`. -/
noncomputable def eD : List ℝ := [1, 4, 2, 2]

noncomputable def chunkA : EmbeddedChunk :=
  { text := txtA, filename := fnDoc, chunkIndex := 0, embedding := eA }

noncomputable def chunkB : EmbeddedChunk :=
  { text := txtB, filename := fnDoc, chunkIndex := 1, embedding := eB }

noncomputable def chunkC : EmbeddedChunk :=
  { text := txtC, filename := fnDoc, chunkIndex := 2, embedding := eC }

noncomputable def chunkD : EmbeddedChunk :=
  { text := txtD, filename := fnDoc, chunkIndex := 3, embedding := eD }

/-- A fabricated store whose chunks have similarities
`[9/10, 1/2, 1/2, 1/5]` to the query `q4`, in store order. -/
noncomputable def demoChunks : List EmbeddedChunk :=
  [chunkA, chunkB, chunkC, chunkD]

/-- A chunk whose embedding length (2) differs from `q4`'s (4). -/
noncomputable def eBad : List ℝ := [1, 1]

noncomputable def chunkBad : EmbeddedChunk :=
  { text := txtA, filename := fnDoc, chunkIndex := 0, embedding := eBad }

/-- Unit query used by the chat demos. -/
noncomputable def qUnit : List ℝ := [1, 0]

/-- A zero vector of the same length as `qUnit`. -/
noncomputable def zeroVec : List ℝ := [0, 0]

def helloText : String := "hello world"

noncomputable def helloChunk : EmbeddedChunk :=
  { text := helloText, filename := fnNotes, chunkIndex := 0, embedding := qUnit }

noncomputable def storeHello : VectorStore := ⟨[helloChunk]⟩

def ansDemo : String := "some answer"

def modelDemo : String := "llama3"

/-- A concrete collaborator environment: one stored chunk, an embedder that
returns `qUnit` for every query, and a stub completion model. -/
noncomputable def envHello : ChatEnv :=
  { store := .ok storeHello
    embed := fun _ => qUnit
    complete := fun _ _ => ansDemo
    model := modelDemo }

/-- The preview string `handleChat` actually produces for `helloChunk`. -/
def helloPreview : String := "hello world..."

def qMsg : String := "hi"

def wsMsg : String := "   "

/-- Two-paragraph text whose total length (9) is below a chunk size of 10,
while the buffer-plus-paragraph-plus-separator length at the second paragraph
(11) is not. -/
def sAB : String := "aaaa\n\nbbb"

def sA4 : String := "aaaa"

def sB3 : String := "bbb"

def sHi : String := "hi"

/-! ### Lemmas about `cosineSimilarity`, `scoreChunks` and the sort -/

lemma cosineSimilarity_eq_of_length {a b : List ℝ} (h : a.length = b.length) :
    cosineSimilarity a b =
      if Real.sqrt (sumSq a) = 0 ∨ Real.sqrt (sumSq b) = 0 then .ok 0
      else .ok (dotList a b / (Real.sqrt (sumSq a) * Real.sqrt (sumSq b))) := by
  unfold cosineSimilarity
  rw [if_neg (by simp [h])]

lemma cosineSimilarity_ok_of_length {a b : List ℝ} (h : a.length = b.length) :
    ∃ r, cosineSimilarity a b = .ok r := by
  rw [cosineSimilarity_eq_of_length h]
  split
  · exact ⟨0, rfl⟩
  · exact ⟨_, rfl⟩

lemma cosineSimilarity_error_iff (a b : List ℝ) :
    cosineSimilarity a b = .error .dimensionMismatch ↔ a.length ≠ b.length := by
  constructor
  · intro hc
    intro h
    rcases cosineSimilarity_ok_of_length h with ⟨r, hr⟩
    rw [hr] at hc
    exact Except.noConfusion hc
  · intro h
    unfold cosineSimilarity
    rw [if_pos h]

lemma scoreChunks_ok {q : List ℝ} {C : List EmbeddedChunk}
    (h : ∀ c ∈ C, c.embedding.length = q.length) :
    ∃ s, scoreChunks q C = .ok s ∧ s.map ScoredChunk.chunk = C := by
  induction C with
  | nil => exact ⟨[], rfl, rfl⟩
  | cons c cs ih =>
    obtain ⟨r, hr⟩ :=
      cosineSimilarity_ok_of_length (h c (List.mem_cons_self c cs)).symm
    obtain ⟨s, hs, hmap⟩ := ih fun x hx => h x (List.mem_cons_of_mem _ hx)
    refine ⟨⟨c, r⟩ :: s, ?_, ?_⟩
    · simp [scoreChunks, hr, hs]
    · simp [hmap]

lemma scoreChunks_error {q : List ℝ} {C : List EmbeddedChunk}
    (h : ∃ c ∈ C, c.embedding.length ≠ q.length) :
    scoreChunks q C = .error .dimensionMismatch := by
  induction C with
  | nil => simp at h
  | cons c cs ih =>
    by_cases hc : c.embedding.length = q.length
    · obtain ⟨r, hr⟩ := cosineSimilarity_ok_of_length (a := q) hc.symm
      have hcs : ∃ x ∈ cs, x.embedding.length ≠ q.length := by
        rcases h with ⟨x, hx, hne⟩
        rcases List.mem_cons.1 hx with rfl | hx
        · exact absurd hc hne
        · exact ⟨x, hx, hne⟩
      simp [scoreChunks, hr, ih hcs]
    · have he : cosineSimilarity q c.embedding = .error .dimensionMismatch :=
        (cosineSimilarity_error_iff _ _).2 fun hq => hc hq.symm
      simp [scoreChunks, he]

lemma filter_orderedInsert (v : ℝ) (x : ScoredChunk) (l : List ScoredChunk) :
    (List.orderedInsert simDescRel x l).filter (fun c => decide (c.similarity = v)) =
      if x.similarity = v then
        x :: l.filter (fun c => decide (c.similarity = v))
      else l.filter (fun c => decide (c.similarity = v)) := by
  induction l with
  | nil => by_cases hx : x.similarity = v <;> simp [hx]
  | cons y l ih =>
    by_cases hr : simDescRel x y
    · have step : List.orderedInsert simDescRel x (y :: l) = x :: y :: l := by
        simp [List.orderedInsert, hr]
      rw [step]
      by_cases hx : x.similarity = v <;> simp [hx]
    · have step : List.orderedInsert simDescRel x (y :: l) =
          y :: List.orderedInsert simDescRel x l := by
        simp [List.orderedInsert, hr]
      rw [step]
      by_cases hx : x.similarity = v
      · have hy : ¬ y.similarity = v := by
          intro hyv
          exact hr (by simp [simDescRel, hx, hyv])
        simp [hx, hy, ih]
      · by_cases hy : y.similarity = v <;> simp [hx, hy, ih]

lemma filter_sortDesc (v : ℝ) (l : List ScoredChunk) :
    (sortDesc l).filter (fun c => decide (c.similarity = v)) =
      l.filter (fun c => decide (c.similarity = v)) := by
  induction l with
  | nil => rfl
  | cons x l ih =>
    have hsort : sortDesc (x :: l) = List.orderedInsert simDescRel x (sortDesc l) := rfl
    rw [hsort, filter_orderedInsert]
    by_cases hx : x.similarity = v <;> simp [hx, ih]

lemma sortDesc_perm (l : List ScoredChunk) : List.Perm (sortDesc l) l :=
  List.perm_insertionSort simDescRel l

lemma sortDesc_sorted (l : List ScoredChunk) : List.Pairwise simDescRel (sortDesc l) :=
  List.sorted_insertionSort simDescRel l

/-! ### Evaluation lemmas for the concrete demo store -/

lemma sqrt_eval {x y : ℝ} (hy : 0 ≤ y) (h : y * y = x) : Real.sqrt x = y := by
  subst h
  exact Real.sqrt_mul_self hy

lemma cosineSimilarity_eval {a b : List ℝ} (h : a.length = b.length)
    {d s t u v : ℝ} (hd : dotList a b = d) (hs : sumSq a = s)
    (ht : sumSq b = t) (hu : 0 ≤ u) (hv : 0 ≤ v)
    (ha : u * u = s) (hb : v * v = t)
    (hu0 : u ≠ 0) (hv0 : v ≠ 0) :
    cosineSimilarity a b = .ok (d / (u * v)) := by
  rw [cosineSimilarity_eq_of_length h, hd, hs, ht, sqrt_eval hu ha, sqrt_eval hv hb,
    if_neg (by push_neg; exact ⟨hu0, hv0⟩)]

lemma cos_q4_eA : cosineSimilarity q4 eA = .ok (9 / 10) := by
  have h := cosineSimilarity_eval (a := q4) (b := eA) rfl
    (d := 9) (s := 1) (t := 100) (u := 1) (v := 10)
    (by norm_num [dotList, q4, eA]) (by norm_num [sumSq, q4])
    (by norm_num [sumSq, eA]) (by norm_num) (by norm_num)
    (by norm_num) (by norm_num) (by norm_num) (by norm_num)
  norm_num at h
  exact h

lemma cos_q4_eB : cosineSimilarity q4 eB = .ok (1 / 2) := by
  have h := cosineSimilarity_eval (a := q4) (b := eB) rfl
    (d := 1) (s := 1) (t := 4) (u := 1) (v := 2)
    (by norm_num [dotList, q4, eB]) (by norm_num [sumSq, q4])
    (by norm_num [sumSq, eB]) (by norm_num) (by norm_num)
    (by norm_num) (by norm_num) (by norm_num) (by norm_num)
  norm_num at h
  exact h

lemma cos_q4_eC : cosineSimilarity q4 eC = .ok (1 / 2) := by
  have h := cosineSimilarity_eval (a := q4) (b := eC) rfl
    (d := 2) (s := 1) (t := 16) (u := 1) (v := 4)
    (by norm_num [dotList, q4, eC]) (by norm_num [sumSq, q4])
    (by norm_num [sumSq, eC]) (by norm_num) (by norm_num)
    (by norm_num) (by norm_num) (by norm_num) (by norm_num)
  norm_num at h
  exact h

lemma cos_q4_eD : cosineSimilarity q4 eD = .ok (1 / 5) := by
  have h := cosineSimilarity_eval (a := q4) (b := eD) rfl
    (d := 1) (s := 1) (t := 25) (u := 1) (v := 5)
    (by norm_num [dotList, q4, eD]) (by norm_num [sumSq, q4])
    (by norm_num [sumSq, eD]) (by norm_num) (by norm_num)
    (by norm_num) (by norm_num) (by norm_num) (by norm_num)
  norm_num at h
  exact h

lemma scoreChunks_demo :
    scoreChunks q4 demoChunks =
      .ok [⟨chunkA, 9 / 10⟩, ⟨chunkB, 1 / 2⟩, ⟨chunkC, 1 / 2⟩, ⟨chunkD, 1 / 5⟩] := by
  have ha : chunkA.embedding = eA := rfl
  have hb : chunkB.embedding = eB := rfl
  have hc : chunkC.embedding = eC := rfl
  have hd : chunkD.embedding = eD := rfl
  simp [demoChunks, scoreChunks, ha, hb, hc, hd, cos_q4_eA, cos_q4_eB, cos_q4_eC, cos_q4_eD]

lemma sortDesc_demo :
    sortDesc [⟨chunkA, 9 / 10⟩, ⟨chunkB, 1 / 2⟩, ⟨chunkC, 1 / 2⟩, ⟨chunkD, 1 / 5⟩] =
      [⟨chunkA, 9 / 10⟩, ⟨chunkB, 1 / 2⟩, ⟨chunkC, 1 / 2⟩, ⟨chunkD, 1 / 5⟩] := by
  norm_num [sortDesc, List.insertionSort, List.orderedInsert, simDescRel]

lemma search_demo3 :
    searchSimilarChunks q4 demoChunks 3 =
      .ok [⟨chunkA, 9 / 10⟩, ⟨chunkB, 1 / 2⟩, ⟨chunkC, 1 / 2⟩] := by
  rw [searchSimilarChunks, scoreChunks_demo]
  show Except.ok ((sortDesc _).take 3) = _
  rw [sortDesc_demo]
  rfl

lemma cos_qUnit : cosineSimilarity qUnit qUnit = .ok 1 := by
  have h := cosineSimilarity_eval (a := qUnit) (b := qUnit) rfl
    (d := 1) (s := 1) (t := 1) (u := 1) (v := 1)
    (by norm_num [dotList, qUnit]) (by norm_num [sumSq, qUnit])
    (by norm_num [sumSq, qUnit]) (by norm_num) (by norm_num)
    (by norm_num) (by norm_num) (by norm_num) (by norm_num)
  norm_num at h
  exact h

lemma search_hello :
    searchSimilarChunks qUnit storeHello.chunks 5 = .ok [⟨helloChunk, 1⟩] := by
  have he : helloChunk.embedding = qUnit := rfl
  have hst : storeHello.chunks = [helloChunk] := rfl
  simp [hst, searchSimilarChunks, scoreChunks, he, cos_qUnit, Except.map, sortDesc,
    List.insertionSort, List.orderedInsert]

/-! ### Lemmas about the chunker -/

lemma splitGo_ne_nil (t : List Char) : ∀ acc nl, splitGo acc nl t ≠ [] := by
  induction t with
  | nil =>
    intro acc nl
    unfold splitGo
    split <;> simp
  | cons c rest ih =>
    intro acc nl
    unfold splitGo
    split
    · exact ih _ _
    · split
      · simp
      · exact ih _ _

lemma sumLens_cons (p : List Char) (ps : List (List Char)) (h : ps ≠ []) :
    sumLens (p :: ps) = p.length + 2 + sumLens ps := by
  cases ps with
  | nil => exact absurd rfl h
  | cons q qs => simp [sumLens]; omega

lemma sumLens_le (t : List Char) :
    ∀ acc nl, sumLens (splitGo acc nl t) ≤ acc.length + nl + t.length := by
  induction t with
  | nil =>
    intro acc nl
    unfold splitGo
    split
    · simp [sumLens]
      omega
    · simp [sumLens]
  | cons c rest ih =>
    intro acc nl
    unfold splitGo
    split
    · have := ih acc (nl + 1)
      simp only [List.length_cons]
      omega
    · split
      · rename_i hnl
        have hrest := ih [c] 0
        have hne := splitGo_ne_nil rest [c] 0
        rw [sumLens_cons _ _ hne]
        simp only [List.length_reverse, List.length_cons, List.length_nil] at *
        omega
      · have := ih (c :: (List.replicate nl '\n' ++ acc)) 0
        simp only [List.length_cons, List.length_append, List.length_replicate] at *
        omega

lemma chunkStep_fits {cs ov : Nat} {chunks : List (List Char)} {buf p : List Char}
    (h : buf.length + p.length < cs) :
    chunkStep cs ov (chunks, buf) p = (chunks, buf ++ p ++ nl2) := by
  simp only [chunkStep]
  rw [if_pos h]

lemma foldl_chunkStep (cs ov : Nat) (ps : List (List Char)) :
    ∀ chunks buf, ps ≠ [] → buf.length + sumLens ps < cs →
      ps.foldl (chunkStep cs ov) (chunks, buf) = (chunks, buf ++ flatNl ps) := by
  induction ps with
  | nil => intro _ _ h; exact absurd rfl h
  | cons p ps ih =>
    intro chunks buf _ hlt
    have hp : p.length ≤ sumLens (p :: ps) := by
      simp [sumLens]
      omega
    rw [List.foldl_cons, chunkStep_fits (by omega)]
    cases ps with
    | nil =>
      simp [flatNl, List.append_assoc]
    | cons q qs =>
      have hne : q :: qs ≠ [] := by simp
      have hstep : sumLens (p :: q :: qs) = p.length + 2 + sumLens (q :: qs) :=
        sumLens_cons _ _ hne
      have hlt' : (buf ++ p ++ nl2).length + sumLens (q :: qs) < cs := by
        simp only [List.length_append]
        have : nl2.length = 2 := rfl
        omega
      rw [ih _ _ hne hlt']
      simp [flatNl, List.append_assoc]

lemma flatNl_pos {ps : List (List Char)} (h : ps ≠ []) : 0 < (flatNl ps).length := by
  cases ps with
  | nil => exact absurd rfl h
  | cons p qs => simp [flatNl, nl2]

lemma jsTrim_of_all_whitespace {s : List Char} (h : ∀ c ∈ s, c.isWhitespace) :
    jsTrim s = [] := by
  have h1 : s.dropWhile Char.isWhitespace = [] := by
    rw [List.dropWhile_eq_nil_iff]
    exact h
  simp [jsTrim, h1]

lemma demoChunks_len : ∀ c ∈ demoChunks, c.embedding.length = q4.length := by
  intro c hc
  simp [demoChunks] at hc
  rcases hc with rfl | rfl | rfl | rfl <;> rfl

/-! ### Claim theorems -/

/-- Claim C1: for every query embedding `q`, chunk list `C` whose embeddings
all have the same length as `q`, and `topK ≥ 0`, `searchSimilarChunks`
succeeds and returns a list sorted in descending order of the attached
similarity, and elements with exactly equal similarity keep the relative order
of the scored list `s` built from `C` in store order (`s.map chunk = C`), i.e.
the tie-break is stable.  The concrete `[0.9, 0.5, 0.5, 0.2]` instance of the
claim is checked in the witness. -/
theorem searchSimilarChunks_sorted_stable (q : List ℝ) (C : List EmbeddedChunk)
    (topK : Nat) (h : ∀ c ∈ C, c.embedding.length = q.length) :
    ∃ s l, scoreChunks q C = .ok s ∧ s.map ScoredChunk.chunk = C ∧
      searchSimilarChunks q C topK = .ok l ∧
      List.Pairwise simDescRel l ∧
      ∀ v : ℝ, List.Sublist
        (l.filter fun c => decide (c.similarity = v))
        (s.filter fun c => decide (c.similarity = v)) := by
  obtain ⟨s, hs, hmap⟩ := scoreChunks_ok h
  refine ⟨s, (sortDesc s).take topK, hs, hmap, ?_, ?_, ?_⟩
  · rw [searchSimilarChunks, hs]
    rfl
  · exact List.Pairwise.sublist (List.take_sublist _ _) (sortDesc_sorted s)
  · intro v
    have h2 := (List.take_sublist topK (sortDesc s)).filter
      (fun c => decide (c.similarity = v))
    rw [filter_sortDesc] at h2
    exact h2

/-- Witness for C1 at the fabricated store with similarities
`[9/10, 1/2, 1/2, 1/5]` and `topK = 3`: the hypotheses hold, the theorem
applies, and the concrete result is the `9/10` chunk followed by the first and
then the second of the two tied `1/2` chunks. -/
theorem searchSimilarChunks_sorted_stable_witness :
    (∀ c ∈ demoChunks, c.embedding.length = q4.length) ∧
    (∃ s l, scoreChunks q4 demoChunks = .ok s ∧ s.map ScoredChunk.chunk = demoChunks ∧
      searchSimilarChunks q4 demoChunks 3 = .ok l ∧
      List.Pairwise simDescRel l ∧
      ∀ v : ℝ, List.Sublist
        (l.filter fun c => decide (c.similarity = v))
        (s.filter fun c => decide (c.similarity = v))) ∧
    searchSimilarChunks q4 demoChunks 3 =
      .ok [⟨chunkA, 9 / 10⟩, ⟨chunkB, 1 / 2⟩, ⟨chunkC, 1 / 2⟩] :=
  ⟨demoChunks_len, searchSimilarChunks_sorted_stable q4 demoChunks 3 demoChunks_len,
    search_demo3⟩

/-- Claim C2: under the same-length hypothesis `searchSimilarChunks` returns a
list of length exactly `min topK C.length`, and on the empty store it returns
`[]` without failing. -/
theorem searchSimilarChunks_length (q : List ℝ) (C : List EmbeddedChunk) (topK : Nat)
    (h : ∀ c ∈ C, c.embedding.length = q.length) :
    (∃ l, searchSimilarChunks q C topK = .ok l ∧ l.length = min topK C.length) ∧
    searchSimilarChunks q ([] : List EmbeddedChunk) topK = .ok [] := by
  obtain ⟨s, hs, hmap⟩ := scoreChunks_ok h
  refine ⟨⟨(sortDesc s).take topK, ?_, ?_⟩, ?_⟩
  · rw [searchSimilarChunks, hs]
    rfl
  · rw [List.length_take, (sortDesc_perm s).length_eq]
    rw [show s.length = C.length from by rw [← hmap, List.length_map]]
  · show Except.ok (List.take topK ([] : List ScoredChunk)) = Except.ok []
    rw [List.take_nil]

/-- Witness for C2: on the four-chunk demo store with `topK = 5` the result
has length `min 5 4`. -/
theorem searchSimilarChunks_length_witness :
    (∀ c ∈ demoChunks, c.embedding.length = q4.length) ∧
    ((∃ l, searchSimilarChunks q4 demoChunks 5 = .ok l ∧
        l.length = min 5 demoChunks.length) ∧
      searchSimilarChunks q4 ([] : List EmbeddedChunk) 5 = .ok []) :=
  ⟨demoChunks_len, searchSimilarChunks_length q4 demoChunks 5 demoChunks_len⟩

/-- Claim C3: when some chunk's embedding length differs from the query's,
the whole `searchSimilarChunks` call fails with the dimension-mismatch error
and returns no result list, because `cosineSimilarity` throws exactly when the
two lengths differ. -/
theorem searchSimilarChunks_dimension_mismatch (q : List ℝ) (C : List EmbeddedChunk)
    (topK : Nat) (h : ∃ c ∈ C, c.embedding.length ≠ q.length) :
    searchSimilarChunks q C topK = .error .dimensionMismatch ∧
    ∀ a b : List ℝ,
      (cosineSimilarity a b = .error .dimensionMismatch ↔ a.length ≠ b.length) := by
  refine ⟨?_, cosineSimilarity_error_iff⟩
  rw [searchSimilarChunks, scoreChunks_error h]
  rfl

/-- Witness for C3: a store holding one chunk with a length-2 embedding,
queried with the length-4 embedding `q4`. -/
theorem searchSimilarChunks_dimension_mismatch_witness :
    (∃ c ∈ [chunkBad], c.embedding.length ≠ q4.length) ∧
    (searchSimilarChunks q4 [chunkBad] 5 = .error .dimensionMismatch ∧
      ∀ a b : List ℝ,
        (cosineSimilarity a b = .error .dimensionMismatch ↔ a.length ≠ b.length)) := by
  have h : ∃ c ∈ [chunkBad], c.embedding.length ≠ q4.length := by
    refine ⟨chunkBad, by simp, ?_⟩
    show (2 : Nat) ≠ 4
    omega
  exact ⟨h, searchSimilarChunks_dimension_mismatch q4 [chunkBad] 5 h⟩

/-- Claim C10: `searchSimilarChunks` is a pure function of its inputs in this
model — the source builds fresh `{...chunk, similarity}` records, sorts that
fresh array in place and slices it, never touching `chunks` — and the records
it returns carry the chunks of `C` unchanged: the underlying chunks of the
result form a sub-permutation of `C`. -/
theorem searchSimilarChunks_preserves_chunks (q : List ℝ) (C : List EmbeddedChunk)
    (topK : Nat) (h : ∀ c ∈ C, c.embedding.length = q.length) :
    ∃ l, searchSimilarChunks q C topK = .ok l ∧
      List.Subperm (l.map ScoredChunk.chunk) C := by
  obtain ⟨s, hs, hmap⟩ := scoreChunks_ok h
  refine ⟨(sortDesc s).take topK, ?_, ?_⟩
  · rw [searchSimilarChunks, hs]
    rfl
  · have h1 : List.Sublist (((sortDesc s).take topK).map ScoredChunk.chunk)
        ((sortDesc s).map ScoredChunk.chunk) := (List.take_sublist _ _).map _
    have h2 : List.Perm ((sortDesc s).map ScoredChunk.chunk) (s.map ScoredChunk.chunk) :=
      (sortDesc_perm s).map _
    rw [hmap] at h2
    exact h1.subperm.trans h2.subperm

/-- Witness for C10 on the demo store with `topK = 2`. -/
theorem searchSimilarChunks_preserves_chunks_witness :
    (∀ c ∈ demoChunks, c.embedding.length = q4.length) ∧
    ∃ l, searchSimilarChunks q4 demoChunks 2 = .ok l ∧
      List.Subperm (l.map ScoredChunk.chunk) demoChunks :=
  ⟨demoChunks_len, searchSimilarChunks_preserves_chunks q4 demoChunks 2 demoChunks_len⟩

/-- Claim C4 counterexample: `chunkText` on the empty string with the default
parameters `2000` and `200` does not return the empty sequence — JavaScript
`"".split(/\n\n+/)` is `[""]`, the empty paragraph is accumulated together
with a separator, and the final flush pushes one (trimmed, empty) chunk. -/
theorem chunkText_empty_counterexample : chunkText [] 2000 200 ≠ [] := by
  decide

/-- Claim C4 (amended): for every `chunkSize` and `overlap`, `chunkText` on
the empty string returns a one-element sequence whose only chunk is the empty
string. -/
theorem chunkText_empty (chunkSize overlap : Nat) :
    chunkText [] chunkSize overlap = [[]] := by
  have hfold : List.foldl (chunkStep chunkSize overlap) ([], []) [[]] = ([], nl2) := by
    rw [List.foldl_cons, List.foldl_nil]
    simp only [chunkStep]
    split
    · simp
    · simp
  have htrim : jsTrim ['\n', '\n'] = [] := by decide
  simp only [chunkText]
  rw [show splitParagraphs ([] : List Char) = [[]] from rfl, hfold]
  simp [nl2, htrim]

/-- Claim C5 counterexample: on the text `"aaaa\n\nbbb"` with `chunkSize = 10`
and `overlap = 200` the source `chunkText` appends the second paragraph (one
chunk results) even though buffer (6) + paragraph (3) + separator (2) is not
strictly below 10; a chunker following the claim's accumulation rule literally
(`chunkTextSpecSep`) flushes instead and produces two chunks. -/
theorem chunkText_sep_rule_counterexample :
    chunkText sAB.data 10 200 = [sAB.data] ∧
    chunkTextSpecSep sAB.data 10 200 = [sA4.data, sB3.data] := by
  constructor <;> decide

/-- Claim C5 (amended): if every paragraph of the text is strictly shorter
than `chunkSize` and the total text length is strictly below `chunkSize`,
`chunkText` returns exactly one chunk; the accumulation rule appends a
paragraph exactly when the buffer length plus the paragraph length (the
two-character separator not counted) is strictly below `chunkSize`. -/
theorem chunkText_single_chunk (text : List Char) (chunkSize overlap : Nat)
    (_hpara : ∀ p ∈ splitParagraphs text, p.length < chunkSize)
    (htot : text.length < chunkSize) :
    (chunkText text chunkSize overlap).length = 1 := by
  have hne : splitParagraphs text ≠ [] := splitGo_ne_nil text [] 0
  have hsum : sumLens (splitParagraphs text) ≤ text.length := by
    have h := sumLens_le text [] 0
    simpa [splitParagraphs] using h
  have hfold := foldl_chunkStep chunkSize overlap (splitParagraphs text) [] [] hne
    (by simp only [List.length_nil]; omega)
  simp only [chunkText]
  rw [show splitParagraphs text = splitParagraphs text from rfl, hfold]
  have hflat : 0 < (flatNl (splitParagraphs text)).length := flatNl_pos hne
  rw [if_pos (by simpa using hflat)]
  simp

/-- Witness for C5 (amended) on the two-character text `"hi"` with the default
parameters. -/
theorem chunkText_single_chunk_witness :
    (∀ p ∈ splitParagraphs sHi.data, p.length < 2000) ∧ sHi.data.length < 2000 ∧
    (chunkText sHi.data 2000 200).length = 1 :=
  ⟨by decide, by decide, chunkText_single_chunk sHi.data 2000 200 (by decide) (by decide)⟩

lemma dotList_self (a : List ℝ) : dotList a a = sumSq a := by
  induction a with
  | nil => rfl
  | cons x t ih =>
    simp only [dotList, sumSq, List.zip_cons_cons, List.map_cons, List.sum_cons] at ih ⊢
    rw [ih]

lemma sumSq_nonneg_mem (a : List ℝ) : ∀ y ∈ a.map fun x => x * x, 0 ≤ y := by
  intro y hy
  obtain ⟨z, _, rfl⟩ := List.mem_map.1 hy
  exact mul_self_nonneg z

/-- Claim C6: for every non-zero vector `a` (some component differs from `0`),
`cosineSimilarity a a` succeeds and returns exactly `1`. -/
theorem cosineSimilarity_self (a : List ℝ) (h : ∃ x ∈ a, x ≠ 0) :
    cosineSimilarity a a = .ok 1 := by
  obtain ⟨x, hx, hx0⟩ := h
  have hpos : 0 < sumSq a := by
    have hmem : x * x ∈ a.map fun y => y * y := List.mem_map_of_mem _ hx
    have hle : x * x ≤ sumSq a := List.single_le_sum (sumSq_nonneg_mem a) _ hmem
    have hxx : 0 < x * x := mul_self_pos.2 hx0
    linarith
  have hs : Real.sqrt (sumSq a) ≠ 0 := ne_of_gt (Real.sqrt_pos.2 hpos)
  rw [cosineSimilarity_eq_of_length rfl, if_neg (by push_neg; exact ⟨hs, hs⟩),
    dotList_self, Real.mul_self_sqrt hpos.le, div_self (ne_of_gt hpos)]

/-- Witness for C6 at the non-zero vector `qUnit = [1, 0]`. -/
theorem cosineSimilarity_self_witness :
    (∃ x ∈ qUnit, x ≠ 0) ∧ cosineSimilarity qUnit qUnit = .ok 1 := by
  have h : ∃ x ∈ qUnit, x ≠ 0 := ⟨1, by simp [qUnit], one_ne_zero⟩
  exact ⟨h, cosineSimilarity_self qUnit h⟩

lemma sumSq_eq_zero {v : List ℝ} (h : ∀ x ∈ v, x = 0) : sumSq v = 0 := by
  apply List.sum_eq_zero
  intro y hy
  obtain ⟨z, hz, rfl⟩ := List.mem_map.1 hy
  rw [h z hz, mul_zero]

/-- Claim C7: for equal-length vectors, if either one is the zero vector (its
Euclidean norm is exactly zero), `cosineSimilarity` returns `0` without
error — the division is guarded. -/
theorem cosineSimilarity_zero_vector (a b : List ℝ) (hlen : a.length = b.length)
    (h : (∀ x ∈ a, x = 0) ∨ (∀ x ∈ b, x = 0)) :
    cosineSimilarity a b = .ok 0 := by
  have hz : Real.sqrt (sumSq a) = 0 ∨ Real.sqrt (sumSq b) = 0 := by
    rcases h with h | h
    · exact Or.inl (by rw [sumSq_eq_zero h, Real.sqrt_zero])
    · exact Or.inr (by rw [sumSq_eq_zero h, Real.sqrt_zero])
  rw [cosineSimilarity_eq_of_length hlen, if_pos hz]

/-- Witness for C7 at the pair `zeroVec = [0, 0]`, `qUnit = [1, 0]`. -/
theorem cosineSimilarity_zero_vector_witness :
    zeroVec.length = qUnit.length ∧
    ((∀ x ∈ zeroVec, x = 0) ∨ (∀ x ∈ qUnit, x = 0)) ∧
    cosineSimilarity zeroVec qUnit = .ok 0 := by
  have h : (∀ x ∈ zeroVec, x = 0) ∨ (∀ x ∈ qUnit, x = 0) := by
    left
    intro x hx
    simp [zeroVec] at hx
    exact hx
  exact ⟨rfl, h, cosineSimilarity_zero_vector zeroVec qUnit rfl h⟩

/-- Claim C8: a missing, empty or whitespace-only message is rejected with the
400 client error before any external call: the returned event trace is empty,
so the store is not loaded and no embedding or completion request is made. -/
theorem handleChat_rejects_blank (env : ChatEnv) (m : String)
    (h : ∀ c ∈ m.data, c.isWhitespace) :
    handleChat env (some m) = (badRequestResponse, []) ∧
    handleChat env none = (badRequestResponse, []) := by
  have ht : jsTrim m.data = [] := jsTrim_of_all_whitespace h
  constructor
  · simp [handleChat, ht]
  · rfl

/-- Witness for C8 at the whitespace message `"   "` in the concrete
environment. -/
theorem handleChat_rejects_blank_witness :
    (∀ c ∈ wsMsg.data, c.isWhitespace) ∧
    (handleChat envHello (some wsMsg) = (badRequestResponse, []) ∧
      handleChat envHello none = (badRequestResponse, [])) :=
  ⟨by decide, handleChat_rejects_blank envHello wsMsg (by decide)⟩

lemma handleChat_success (env : ChatEnv) (m : String) (store : VectorStore)
    (top : List ScoredChunk)
    (hm : ¬ (m = "" ∨ (jsTrim m.data).length = 0))
    (hs : env.store = .ok store)
    (ht : searchSimilarChunks (env.embed m) store.chunks 5 = .ok top) :
    handleChat env (some m) =
      ({ status := 200
         answer := some (env.complete (ragPreamble ++ buildContext top) m)
         sources := top.map mkSourceEntry
         usingKnowledgebase := true
         model := some env.model
         error := none
         details := none },
       [ChatEvent.loadStore, ChatEvent.embedCall m,
        ChatEvent.completeCall (ragPreamble ++ buildContext top) m]) := by
  have hm1 : ¬ m = "" := fun h1 => hm (Or.inl h1)
  have hm2 : ¬ jsTrim m.data = [] := fun h2 => hm (Or.inr (by rw [h2]; rfl))
  simp [handleChat, hm1, hm2, hs, ht]

/-- Claim C9 (amended): on every successful chat call, each entry of the
returned `sources` list has a `preview` equal to the first 150 characters of
the corresponding retrieved chunk's text followed by the `'...'` suffix. -/
theorem handleChat_preview (env : ChatEnv) (m : String) (store : VectorStore)
    (top : List ScoredChunk)
    (hm : ¬ (m = "" ∨ (jsTrim m.data).length = 0))
    (hs : env.store = .ok store)
    (ht : searchSimilarChunks (env.embed m) store.chunks 5 = .ok top) :
    (handleChat env (some m)).1.status = 200 ∧
    (handleChat env (some m)).1.sources = top.map mkSourceEntry ∧
    ∀ s ∈ (handleChat env (some m)).1.sources, ∃ c ∈ top,
      s.preview = c.chunk.text.take 150 ++ ellipsis := by
  rw [handleChat_success env m store top hm hs ht]
  refine ⟨rfl, rfl, ?_⟩
  intro s hsrc
  obtain ⟨c, hc, rfl⟩ := List.mem_map.1 hsrc
  exact ⟨c, hc, rfl⟩

/-- Witness for C9 (amended) in the concrete environment whose store holds one
chunk with text `"hello world"`. -/
theorem handleChat_preview_witness :
    (¬ (qMsg = "" ∨ (jsTrim qMsg.data).length = 0)) ∧
    ((handleChat envHello (some qMsg)).1.status = 200 ∧
      (handleChat envHello (some qMsg)).1.sources =
        [⟨helloChunk, 1⟩].map mkSourceEntry ∧
      ∀ s ∈ (handleChat envHello (some qMsg)).1.sources, ∃ c ∈ [(⟨helloChunk, 1⟩ : ScoredChunk)],
        s.preview = c.chunk.text.take 150 ++ ellipsis) := by
  have hm : ¬ (qMsg = "" ∨ (jsTrim qMsg.data).length = 0) := by decide
  exact ⟨hm, handleChat_preview envHello qMsg storeHello [⟨helloChunk, 1⟩] hm rfl
    search_hello⟩

set_option maxRecDepth 8192 in
/-- Claim C9 counterexample: in the concrete environment the produced preview
is the whole 11-character chunk text followed by `"..."`, which differs from
the first 150 characters of the chunk's text — the claim as stated (preview
equal to the first 150 characters) fails. -/
theorem handleChat_preview_counterexample :
    (handleChat envHello (some qMsg)).1.sources.map SourceEntry.preview =
      [helloPreview] ∧
    helloPreview ≠ helloChunk.text.take 150 := by
  constructor
  · rw [handleChat_success envHello qMsg storeHello [⟨helloChunk, 1⟩] (by decide) rfl
      search_hello]
    decide
  · decide

end RAG
